import Mathlib

/-!
Shallow embedding of the MCP chat client core: the connection manager
(`src/lib/mcpClient.ts`), the tool-schema bridge and the chat orchestration
loop (`src/app/api/mcp/connect/route.ts`, chat POST handler), and the image
rehoming helper (`src/lib/imageStorage.ts`).

Conventions of the embedding:
* JavaScript objects with optional fields become structures with `Option`
  fields; a field holding `undefined` is modelled as `none`.
* Fallible calls (`throw` / rejected promises) are modelled as
  `Except String` values; external collaborators (the MCP SDK client, the
  Gemini model, the Supabase artifact store) are oracles passed in as
  function arguments.
* The process-wide registry (`MCPClientManager.clients`, a JS `Map`) is an
  association list whose lookup takes the first matching key; `Map.set`
  replaces in place, which the `mapSet` helper mirrors.
-/

/-! ## Normalized tool-result content (`MCPToolCallResult` in `src/app/types`) -/

/-- One content item of a normalized tool result.  The `url` field is added
by the image-rehoming step in the chat route (`{...contentItem, data:
undefined, url: imageUrl}`). -/
structure ContentItem where
  type : String
  text : Option String := none
  data : Option String := none
  mimeType : Option String := none
  url : Option String := none
  deriving Repr, DecidableEq

/-- A content item as it arrives on the wire in `client.callTool`, before
normalization.  The nested `resource` object of the wire shape is flattened
into the two `resource*` fields. -/
structure WireContentItem where
  type : String
  text : Option String := none
  data : Option String := none
  mimeType : Option String := none
  resourceText : Option String := none
  resourceMimeType : Option String := none
  deriving Repr, DecidableEq

/-- Normalized result of `MCPClientManager.callTool`. -/
structure MCPToolCallResult where
  content : List ContentItem
  isError : Bool
  deriving Repr, DecidableEq

/-- The per-item branch of the `result.content.map` in
`MCPClientManager.callTool` (`src/lib/mcpClient.ts`): recognized types keep
their payload fields, every other type is kept as `{ type: c.type }`. -/
def normalizeItem (c : WireContentItem) : ContentItem :=
  if c.type = "text" then { type := "text", text := c.text }
  else if c.type = "image" then { type := "image", data := c.data, mimeType := c.mimeType }
  else if c.type = "resource" then
    { type := "resource", text := c.resourceText, mimeType := c.resourceMimeType }
  else { type := c.type }

/-- The content mapping of `MCPClientManager.callTool`. -/
def normalizeContent (ws : List WireContentItem) : List ContentItem :=
  ws.map normalizeItem

/-! ## Tool-schema bridge (`convertMCPToolToFunctionDeclaration`) -/

/-- One property of an MCP tool input schema. -/
structure MCPProperty where
  type : Option String := none
  description : Option String := none
  deriving Repr, DecidableEq

/-- The `inputSchema` of an MCP tool. -/
structure MCPInputSchema where
  type : String
  properties : List (String × MCPProperty) := []
  required : Option (List String) := none
  deriving Repr, DecidableEq

/-- A normalized MCP tool as returned by `listTools`. -/
structure MCPTool where
  name : String
  description : Option String := none
  inputSchema : MCPInputSchema
  deriving Repr, DecidableEq

/-- A Gemini function-declaration property. -/
structure GeminiProperty where
  type : String
  description : Option String
  deriving Repr, DecidableEq

/-- The `parameters` object of a Gemini function declaration. -/
structure GeminiParameters where
  type : String
  properties : List (String × GeminiProperty)
  required : List String
  deriving Repr, DecidableEq

/-- A Gemini function declaration. -/
structure GeminiFunctionDeclaration where
  name : String
  description : String
  parameters : GeminiParameters
  deriving Repr, DecidableEq

/-- The property-type translation inside
`convertMCPToolToFunctionDeclaration`: number/integer, boolean, array and
object get their Gemini tags, everything else defaults to STRING. -/
def geminiSchemaType (t : Option String) : String :=
  if t = some "number" ∨ t = some "integer" then "NUMBER"
  else if t = some "boolean" then "BOOLEAN"
  else if t = some "array" then "ARRAY"
  else if t = some "object" then "OBJECT"
  else "STRING"

/-- The bridged function name: `serverId ++ "__" ++ tool.name`
(template literal in `convertMCPToolToFunctionDeclaration`). -/
def functionNameFor (serverId toolName : String) : String :=
  serverId ++ "__" ++ toolName

/-- JS truthy-or-default on an optional string (`a || b`): an absent or
empty string falls back to the default. -/
def strOrDefault (s : Option String) (dflt : String) : String :=
  match s with
  | some v => if v = "" then dflt else v
  | none => dflt

/-- Embedding of `convertMCPToolToFunctionDeclaration` from the chat route. -/
def convertMCPToolToFunctionDeclaration (tool : MCPTool) (serverId : String) :
    GeminiFunctionDeclaration :=
  { name := functionNameFor serverId tool.name
  , description := strOrDefault tool.description ("MCP Tool: " ++ tool.name)
  , parameters :=
      { type := "OBJECT"
      , properties := tool.inputSchema.properties.map
          (fun p => (p.1, { type := geminiSchemaType p.2.type
                          , description := p.2.description }))
      , required := tool.inputSchema.required.getD [] } }

/-! ## Per-run tool resolution table (the `toolMap` of the chat POST) -/

/-- An enabled-tool selection sent by the caller. -/
structure EnabledTool where
  serverId : String
  toolName : String
  serverName : String
  deriving Repr, DecidableEq

/-- The value stored in the `toolMap`. -/
structure ToolInfo where
  serverId : String
  toolName : String
  serverName : String
  deriving Repr, DecidableEq

/-- JS `Map.set` on an association list: replace the value in place when the
key exists, append otherwise. -/
def mapSet (m : List (String × ToolInfo)) (k : String) (v : ToolInfo) :
    List (String × ToolInfo) :=
  if m.any (fun p => p.1 == k) then
    m.map (fun p => if p.1 == k then (k, v) else p)
  else m ++ [(k, v)]

/-- The `toolMap` construction loop of the chat POST handler: for each
enabled tool, skip it when its server is not connected, look its definition
up in the live tool list of that server, and register the bridged function name.
`connected` and `toolsOf` stand for `mcpClientManager.isConnected` and
`mcpClientManager.listTools`. -/
def buildToolMap (enabled : List EnabledTool) (connected : String → Bool)
    (toolsOf : String → List MCPTool) : List (String × ToolInfo) :=
  enabled.foldl
    (fun m et =>
      if connected et.serverId then
        match (toolsOf et.serverId).find? (fun t => t.name == et.toolName) with
        | some t =>
            mapSet m (functionNameFor et.serverId t.name)
              ⟨et.serverId, et.toolName, et.serverName⟩
        | none => m
      else m)
    []

/-- Lookup `toolMap.get(functionCall.name)` — JS `Map.get`. -/
def resolveTool (m : List (String × ToolInfo)) (functionName : String) :
    Option ToolInfo :=
  List.lookup functionName m

/-! ## Tool execution within one orchestration round (chat POST handler) -/

/-- A function call proposed by the model.  Argument maps are modelled as
string association lists; their content is opaque to the orchestrator. -/
structure FunctionCall where
  name : String
  args : List (String × String)
  deriving Repr, DecidableEq

/-- One model response: the proposed function calls
(`response.functionCalls()`, an absent list modelled as `[]`) and the text
(`response.text()`, where the empty string plays the role of JS falsy). -/
structure Response where
  functionCalls : List FunctionCall
  text : String
  deriving Repr, DecidableEq

/-- Payload of a synthesized `functionResponse` part: either
`{ result: ... }` or `{ error: ... }`. -/
inductive FRPayload where
  | result (s : String)
  | error (s : String)
  deriving Repr, DecidableEq

/-- One `functionResponse` part pushed into `functionResponses`. -/
structure FResponse where
  name : String
  response : FRPayload
  deriving Repr, DecidableEq

/-- A `ToolCall` record as returned to the caller.  The nondeterministic
`id` and `startTime`/`endTime` fields (Date.now, Math.random) are omitted
from the embedding; the fields the claims are about are kept. -/
structure ToolCall where
  serverId : String
  serverName : String
  toolName : String
  args : List (String × String)
  status : String
  result : Option MCPToolCallResult := none
  error : Option String := none
  deriving Repr, DecidableEq

/-- Oracle for `mcpClientManager.callTool serverId toolName args`: either a
normalized result or a thrown error message. -/
def CallToolFn : Type :=
  String → String → List (String × String) → Except String MCPToolCallResult

/-- Oracle for `uploadImageToStorage base64Data mimeType`: either a public
URL or a thrown error message. -/
def UploadFn : Type := String → String → Except String String

/-- The default `contentItem.mimeType || "image/png"` — JS truthy-or-default. -/
def mimeOrDefault (item : ContentItem) : String :=
  strOrDefault item.mimeType "image/png"

/-- The per-item body of the image-rehoming `Promise.all` in the chat POST
handler: an image item with truthy inline data is uploaded; on success the
item keeps its other fields, drops `data` and gains `url`; on upload failure
the original item is returned unchanged. -/
def rehomeItem (up : UploadFn) (item : ContentItem) : ContentItem :=
  match item.data with
  | some d =>
      if item.type = "image" ∧ d ≠ "" then
        match up d (mimeOrDefault item) with
        | .ok imageUrl => { item with data := none, url := some imageUrl }
        | .error _ => item
      else item
  | none => item

/-- The `if (!mcpResult.isError && mcpResult.content)` block: a successful
result has each content item rehomed, an error result is left untouched. -/
def processResult (up : UploadFn) (r : MCPToolCallResult) : MCPToolCallResult :=
  if r.isError then r else { r with content := r.content.map (rehomeItem up) }

/-- The per-item branch of `formatToolResult` for a successful result. -/
def fmtContentItem (c : ContentItem) : String :=
  if c.type = "text" ∧ c.text.getD "" ≠ "" then c.text.getD ""
  else if c.type = "image" then "[Image data]"
  else if c.type = "resource" then strOrDefault c.text "[Resource]"
  else "[" ++ c.type ++ "]"

/-- Embedding of `formatToolResult` from the chat route. -/
def formatToolResult (r : MCPToolCallResult) : String :=
  if r.isError then
    "Error: " ++ String.intercalate "\n"
      (r.content.map (fun c => strOrDefault c.text c.type))
  else
    String.intercalate "\n" (r.content.map fmtContentItem)

/-- The `ToolCall` record produced by the `catch` branch of a dispatched
call: status `"error"`, the thrown message recorded in `error`. -/
def errorToolCall (info : ToolInfo) (fc : FunctionCall) (e : String) : ToolCall :=
  { serverId := info.serverId
  , serverName := info.serverName
  , toolName := info.toolName
  , args := fc.args
  , status := "error"
  , result := none
  , error := some e }

/-- The `ToolCall` record produced when `callTool` returned a (possibly
`isError`) result `r`, after rehoming. -/
def completedToolCall (info : ToolInfo) (fc : FunctionCall) (r : MCPToolCallResult) :
    ToolCall :=
  { serverId := info.serverId
  , serverName := info.serverName
  , toolName := info.toolName
  , args := fc.args
  , status := if r.isError then "error" else "success"
  , result := some r
  , error := none }

/-- Handling of one proposed function call in the orchestration loop body:
an unresolved name synthesizes an `{ error: "Unknown tool" }` response and
produces no `ToolCall` record; a resolved call produces exactly one record
and one response, via the try/catch around `mcpClientManager.callTool`. -/
def execCall (tm : List (String × ToolInfo)) (ct : CallToolFn) (up : UploadFn)
    (fc : FunctionCall) : List ToolCall × List FResponse :=
  match resolveTool tm fc.name with
  | none => ([], [⟨fc.name, .error "Unknown tool"⟩])
  | some info =>
      match ct info.serverId info.toolName fc.args with
      | .error e => ([errorToolCall info fc e], [⟨fc.name, .error e⟩])
      | .ok r =>
          let r := processResult up r
          ([completedToolCall info fc r], [⟨fc.name, .result (formatToolResult r)⟩])

/-- The `for (const functionCall of functionCalls)` loop of one round:
records and function responses are accumulated in proposal order. -/
def execRound (tm : List (String × ToolInfo)) (ct : CallToolFn) (up : UploadFn) :
    List FunctionCall → List ToolCall × List FResponse
  | [] => ([], [])
  | fc :: rest =>
      let c := execCall tm ct up fc
      let r := execRound tm ct up rest
      (c.1 ++ r.1, c.2 ++ r.2)

/-! ## The bounded orchestration loop -/

/-- The bound `const maxIterations = 10`. -/
def maxIterations : Nat := 10

/-- The fallback text used when the round budget is exhausted and the last
response text is empty. -/
def truncMsg : String := "도구 호출이 너무 많아 중단되었습니다."

/-- State at loop exit: the value of `iterationCount`, the current
`response`, the accumulated `toolCalls` and the number of
`chat.sendMessage` calls performed so far. -/
structure LoopOut where
  iterationCount : Nat
  lastResponse : Response
  toolCalls : List ToolCall
  sendCount : Nat
  deriving Repr, DecidableEq

/-- The `while (iterationCount < maxIterations)` loop.  `model n` is the
response to the (n+1)-th `chat.sendMessage` call; abstracting the model as a
function of the send index is sound because the loop queries it at strictly
increasing indices.  `fuel` is the number of loop iterations still allowed
(`maxIterations - iterationCount`); each body run increments
`iterationCount`, breaks when the response proposes no function calls, and
otherwise executes the round and sends the batched results back. -/
def chatLoopAux (model : Nat → Response) (tm : List (String × ToolInfo))
    (ct : CallToolFn) (up : UploadFn) :
    Nat → Nat → Nat → Response → List ToolCall → LoopOut
  | 0, ic, sc, resp, acc => ⟨ic, resp, acc, sc⟩
  | fuel + 1, ic, sc, resp, acc =>
      if resp.functionCalls.isEmpty then ⟨ic + 1, resp, acc, sc⟩
      else
        let round := execRound tm ct up resp.functionCalls
        chatLoopAux model tm ct up fuel (ic + 1) (sc + 1) (model sc) (acc ++ round.1)

/-- The response of the chat POST handler: the final text and the tool-call
records (plus, for the proofs, the total `chat.sendMessage` count). -/
structure ChatResult where
  content : String
  toolCalls : List ToolCall
  sendCount : Nat
  deriving Repr, DecidableEq

/-- The chat POST orchestration: one `chat.sendMessage(userMessage)` before
the loop (response `model 0`, send count 1), then the bounded loop; after
the loop, `if (iterationCount >= maxIterations)` replaces the final text by
`response.text() || truncMsg`.  On the break path the final text is the
text of the breaking response, so both paths read `lastResponse`. -/
def runChat (model : Nat → Response) (tm : List (String × ToolInfo))
    (ct : CallToolFn) (up : UploadFn) : ChatResult :=
  let out := chatLoopAux model tm ct up maxIterations 0 1 (model 0) []
  let content :=
    if out.iterationCount ≥ maxIterations then
      if out.lastResponse.text = "" then truncMsg else out.lastResponse.text
    else out.lastResponse.text
  ⟨content, out.toolCalls, out.sendCount⟩

/-! ## Connection manager (`src/lib/mcpClient.ts`) -/

/-- A server configuration (`MCPServerConfig`). -/
structure MCPServerConfig where
  id : String
  name : String
  transport : String
  command : Option String := none
  args : Option (List String) := none
  env : Option (List (String × String)) := none
  url : Option String := none
  deriving Repr, DecidableEq

/-- Environments and env-bearing JS objects are modelled key-wise: an
association list stands for the object, lookup takes the first match (JS
objects have unique keys).  Keys whose value is `undefined` are modelled as
absent. -/
def envLookup (m : List (String × String)) (k : String) : Option String :=
  List.lookup k m

/-- Key-wise semantics of `envRaw = {...process.env, ...(config.env || {})}`:
a configuration-supplied key overrides the ambient one. -/
def mergeEnvRaw (ambient cfgEnv : List (String × String)) (k : String) :
    Option String :=
  match envLookup cfgEnv k with
  | some v => some v
  | none => envLookup ambient k

/-- The stdio environment actually passed to `StdioClientTransport`: the
merged object with empty values stripped AFTER the merge
(`if (value !== undefined && value !== "") env[key] = value`). -/
def buildEnv (ambient cfgEnv : List (String × String)) (k : String) :
    Option String :=
  match mergeEnvRaw ambient cfgEnv k with
  | some v => if v = "" then none else some v
  | none => none

/-- Modelled from the spec: the environment the specification describes,
with "empty-string and undefined values ... stripped before merge" — the
configuration pairs are filtered first and only then overlaid on the
ambient environment, so an empty configuration value leaves the ambient
value intact.  Used only to contrast the spec wording with `buildEnv`. -/
def buildEnvSpecced (ambient cfgEnv : List (String × String)) (k : String) :
    Option String :=
  match envLookup (cfgEnv.filter (fun p => p.2 ≠ "")) k with
  | some v => some v
  | none => envLookup ambient k

/-- A constructed transport (`createTransport` result).  Only the data the
constructor receives is recorded; the live connection object is external. -/
inductive TransportValue where
  | stdio (command : String) (args : List String) (env : String → Option String)
  | sse (url : String)
  | streamableHttp (url : String)

/-- Embedding of `MCPClientManager.createTransport`.  `ambient` is `process.env`;
`parseURL u = false` models `new URL(u)` throwing on a malformed URL.
JS falsiness of `config.command` / `config.url` (absent or empty string)
is `Option.getD "" = ""`. -/
def createTransport (ambient : List (String × String)) (parseURL : String → Bool)
    (config : MCPServerConfig) : Except String TransportValue :=
  if config.transport = "stdio" then
    if config.command.getD "" = "" then .error "STDIO transport requires a command"
    else .ok (.stdio (config.command.getD "") (config.args.getD [])
          (buildEnv ambient (config.env.getD [])))
  else if config.transport = "sse" then
    if config.url.getD "" = "" then .error "SSE transport requires a URL"
    else if parseURL (config.url.getD "") then .ok (.sse (config.url.getD ""))
    else .error "Invalid URL"
  else if config.transport = "streamable-http" then
    if config.url.getD "" = "" then .error "Streamable HTTP transport requires a URL"
    else if parseURL (config.url.getD "") then .ok (.streamableHttp (config.url.getD ""))
    else .error "Invalid URL"
  else .error ("Unsupported transport type: " ++ config.transport)

/-- The registry `this.clients`: a map from server id to the stored
instance.  Only the configuration part of the `{client, transport, config}`
triple is data; the live client and transport are external objects. -/
abbrev Registry : Type := List (String × MCPServerConfig)

/-- JS `Map.delete` on the registry. -/
def eraseKey (reg : Registry) (k : String) : Registry :=
  List.filter (fun p => !(p.1 == k)) reg

/-- JS `Map.set` on the registry (fresh key append; `connect` only sets a
key it has just erased). -/
def regSet (reg : Registry) (k : String) (v : MCPServerConfig) : Registry :=
  if reg.any (fun p => p.1 == k) then
    reg.map (fun p => if p.1 == k then (k, v) else p)
  else reg ++ [(k, v)]

/-- Embedding of `MCPClientManager.disconnect serverId`: a no-op on an absent id;
otherwise `await instance.client.close()` (outcome `closeOf serverId`)
followed by `this.clients.delete(serverId)` — when close throws, the delete
is never reached and the error propagates. -/
def disconnectFn (reg : Registry) (closeOf : String → Except String Unit)
    (serverId : String) : Except String Unit × Registry :=
  match List.lookup serverId reg with
  | none => (.ok (), reg)
  | some _ =>
      match closeOf serverId with
      | .error e => (.error e, reg)
      | .ok _ => (.ok (), eraseKey reg serverId)

/-- Embedding of `MCPClientManager.disconnectAll`: `Promise.all` over
`this.clients.keys()` of per-id `disconnect` calls.  Every started
disconnect runs to completion against the shared registry (modelled as the
left fold), while the aggregate promise rejects with the error of the first
failing id (in key order) when one exists. -/
def disconnectAllFn (reg : Registry) (closeOf : String → Except String Unit) :
    Except String Unit × Registry :=
  let ids := reg.map (fun p => p.1)
  let finalReg := ids.foldl (fun r id => (disconnectFn r closeOf id).2) reg
  let firstErr := ids.findSome? (fun id =>
    match closeOf id with
    | .error e => some e
    | .ok _ => none)
  (match firstErr with
   | some e => .error e
   | none => .ok (), finalReg)

/-- Embedding of `MCPClientManager.connect config`.  Oracles: `oldClose` is the outcome
of closing a pre-existing client for `config.id` (inside the initial
`disconnect`), `handshake` the outcome of `await client.connect(transport)`,
and `newClose` the outcome of the best-effort `client.close()` in the catch
block — which the code swallows (`catch {}`), so the result does not depend
on it.  Returns the call outcome together with the registry state left
behind; the settle delay after a successful handshake is a no-op here. -/
def connectFn (ambient : List (String × String)) (parseURL : String → Bool)
    (reg : Registry) (config : MCPServerConfig)
    (oldClose : Except String Unit) (handshake : Except String Unit)
    (_newClose : Except String Unit) : Except String Unit × Registry :=
  match
    (if (List.lookup config.id reg).isSome then
      match oldClose with
      | .error e => Except.error e
      | .ok _ => Except.ok (eraseKey reg config.id)
    else Except.ok reg : Except String Registry)
  with
  | .error e => (.error e, reg)
  | .ok reg1 =>
      match createTransport ambient parseURL config with
      | .error e => (.error e, reg1)
      | .ok _t =>
          match handshake with
          | .error e => (.error e, reg1)
          | .ok _ => (.ok (), regSet reg1 config.id config)

/-- Whether the close oracle for a server id throws. -/
def closeErrB (closeOf : String → Except String Unit) (id : String) : Bool :=
  match closeOf id with
  | .error _ => true
  | .ok _ => false

/-! ## Helper lemmas -/

theorem lookup_eraseKey_self (reg : Registry) (k : String) :
    List.lookup k (eraseKey reg k) = none := by
  induction reg with
  | nil => rfl
  | cons p rest ih =>
      rcases p with ⟨a, b⟩
      by_cases h : a = k
      · subst h
        simpa [eraseKey, List.filter_cons] using ih
      · have hb : (a == k) = false := beq_eq_false_iff_ne.mpr h
        have hkb : (k == a) = false := beq_eq_false_iff_ne.mpr (Ne.symm h)
        simp only [eraseKey, List.filter_cons, hb, Bool.not_false, if_true]
        rw [List.lookup, hkb]
        exact ih

theorem lookup_none_no_key {α β : Type} [BEq α] [LawfulBEq α]
    (l : List (α × β)) (k : α) (h : List.lookup k l = none) :
    ∀ p ∈ l, p.1 ≠ k := by
  induction l with
  | nil => intro p hp; cases hp
  | cons q rest ih =>
      rcases q with ⟨a, b⟩
      rw [List.lookup] at h
      cases hbeq : (k == a) with
      | true => rw [hbeq] at h; cases h
      | false =>
          rw [hbeq] at h
          intro p hp
          rcases List.mem_cons.mp hp with rfl | hmem
          · intro hk
            have hk2 : a = k := hk
            rw [hk2] at hbeq
            simp at hbeq
          · exact ih h p hmem

/-! ## Claim theorems -/

/-- Claim C9: for every tool-call result, normalization in
`MCPClientManager.callTool` keeps the length and order of the content list (the
i-th normalized item is the normalization of the i-th wire item), and a wire
item whose type is none of text/image/resource is kept with its original
type tag and no payload fields. -/
theorem callTool_normalize_preserves (ws : List WireContentItem) (i : Nat) :
    (normalizeContent ws).length = ws.length ∧
    (normalizeContent ws)[i]? = ws[i]?.map normalizeItem ∧
    (∀ c : WireContentItem, c.type ≠ "text" → c.type ≠ "image" → c.type ≠ "resource" →
      normalizeItem c =
        { type := c.type, text := none, data := none, mimeType := none, url := none }) := by
  refine ⟨by simp [normalizeContent], by simp [normalizeContent], ?_⟩
  intro c h1 h2 h3
  simp [normalizeItem, h1, h2, h3]

/-- Witness for `callTool_normalize_preserves` at a concrete unrecognized
wire item of type "audio" carrying payload fields. -/
theorem callTool_normalize_preserves_witness :
    (("audio" : String) ≠ "text" ∧ ("audio" : String) ≠ "image" ∧
      ("audio" : String) ≠ "resource") ∧
    normalizeItem { type := "audio", text := some "x", data := some "zzz" } =
      { type := "audio", text := none, data := none, mimeType := none, url := none } :=
  ⟨by decide,
   (callTool_normalize_preserves [] 0).2.2
     { type := "audio", text := some "x", data := some "zzz" }
     (by decide) (by decide) (by decide)⟩

/-- Claim C2, counterexample: the bridge neither escapes nor rejects names
containing the separator token, so the two distinct enabled pairs
("a", "b__c") and ("a__b", "c") both map to the bridged name "a__b__c"; in
the per-run toolMap the later registration overwrites the earlier one, and
resolving the bridged name of the first pair returns the second pair. -/
theorem functionName_collision_cex :
    functionNameFor "a" "b__c" = functionNameFor "a__b" "c" ∧
    (("a", "b__c") : String × String) ≠ ("a__b", "c") ∧
    resolveTool
      (buildToolMap
        [⟨"a", "b__c", "S1"⟩, ⟨"a__b", "c", "S2"⟩]
        (fun _ => true)
        (fun s =>
          if s = "a" then [{ name := "b__c", inputSchema := { type := "object" } }]
          else if s = "a__b" then [{ name := "c", inputSchema := { type := "object" } }]
          else []))
      (functionNameFor "a" "b__c") = some ⟨"a__b", "c", "S2"⟩ := by
  refine ⟨by decide, by decide, by decide⟩

/-- Claim C2 (amended): bridged names are injective in each component
separately — two enabled pairs with the same server id and different tool
names, or the same tool name and different server ids, never collide; but
the bridge never rejects a tool, and pairs differing in both components can
collide when a name contains the separator (see the counterexample). -/
theorem functionName_componentwise_inj (s1 s2 t1 t2 : String) :
    (s1 = s2 → functionNameFor s1 t1 = functionNameFor s2 t2 → t1 = t2) ∧
    (t1 = t2 → functionNameFor s1 t1 = functionNameFor s2 t2 → s1 = s2) := by
  constructor
  · rintro rfl h
    have hd := congrArg String.data h
    simp only [functionNameFor, String.data_append] at hd
    exact String.ext (List.append_cancel_left hd)
  · rintro rfl h
    have hd := congrArg String.data h
    simp only [functionNameFor, String.data_append] at hd
    have h2 := List.append_cancel_right hd
    exact String.ext (List.append_cancel_right h2)

/-- Witness for `functionName_componentwise_inj`, applying the shared-tool-name
half at a concrete input with both hypotheses discharged. -/
theorem functionName_componentwise_inj_witness :
    (("search" : String) = "search") ∧
    functionNameFor "srvA" "search" = functionNameFor "srvA" "search" ∧
    ("srvA" : String) = "srvA" :=
  ⟨rfl, rfl, (functionName_componentwise_inj "srvA" "srvA" "search" "search").2 rfl rfl⟩

/-- Claim C10: a proposed function call whose name is not in the per-run
resolution table yields a synthesized `{ error: "Unknown tool" }` function
response and no `ToolCall` record, while a resolved call yields exactly one
record; every proposal of a round gets exactly one function response. -/
theorem unknown_tool_no_record (tm : List (String × ToolInfo)) (ct : CallToolFn)
    (up : UploadFn) (fc : FunctionCall) :
    (resolveTool tm fc.name = none →
      execCall tm ct up fc = ([], [⟨fc.name, .error "Unknown tool"⟩])) ∧
    (∀ info, resolveTool tm fc.name = some info → (execCall tm ct up fc).1.length = 1) ∧
    (∀ fcs : List FunctionCall, (execRound tm ct up fcs).2.length = fcs.length) := by
  refine ⟨?_, ?_, ?_⟩
  · intro h; simp [execCall, h]
  · intro info h
    simp only [execCall, h]
    cases hct : ct info.serverId info.toolName fc.args <;> simp
  · intro fcs
    induction fcs with
    | nil => rfl
    | cons g rest ih =>
        have hone : (execCall tm ct up g).2.length = 1 := by
          simp only [execCall]
          cases hg : resolveTool tm g.name with
          | none => rfl
          | some info =>
              cases hct : ct info.serverId info.toolName g.args <;> simp [hct]
        simp [execRound, hone, ih, Nat.add_comm]

/-- Witness for `unknown_tool_no_record`: with an empty resolution table the
call named "ghost" produces no record and one "Unknown tool" response. -/
theorem unknown_tool_no_record_witness :
    resolveTool [] "ghost" = none ∧
    execCall [] (fun _ _ _ => .error "e") (fun _ _ => .error "e") ⟨"ghost", []⟩ =
      ([], [⟨"ghost", .error "Unknown tool"⟩]) :=
  ⟨rfl,
   (unknown_tool_no_record [] (fun _ _ _ => .error "e") (fun _ _ => .error "e")
     ⟨"ghost", []⟩).1 rfl⟩

/-- Claim C4: in a successful (`isError = false`) tool result every content
item is rehomed; for an image item with truthy inline data, a successful
upload yields the item with its inline data dropped and the returned public
URL attached, and a failing upload yields the original item unchanged (the
failure is swallowed, not propagated). -/
theorem image_rehoming_ok (up : UploadFn) (r : MCPToolCallResult)
    (item : ContentItem) (d : String)
    (hr : r.isError = false) (ht : item.type = "image") (hd : item.data = some d)
    (hne : d ≠ "") :
    (processResult up r).content = r.content.map (rehomeItem up) ∧
    (∀ u, up d (mimeOrDefault item) = .ok u →
      rehomeItem up item = { item with data := none, url := some u }) ∧
    (∀ e, up d (mimeOrDefault item) = .error e → rehomeItem up item = item) := by
  refine ⟨by simp [processResult, hr], ?_, ?_⟩
  · intro u hu
    simp [rehomeItem, hd, ht, hne, hu]
  · intro e he
    simp [rehomeItem, hd, ht, hne, he]

/-- Witness for `image_rehoming_ok`: a concrete image item on a working
artifact store ends up with no inline data and the returned URL. -/
theorem image_rehoming_ok_witness :
    ((false : Bool) = false ∧ ("image" : String) = "image" ∧
      (some "QUJD" : Option String) = some "QUJD" ∧ ("QUJD" : String) ≠ "") ∧
    rehomeItem (fun _ _ => .ok "https://store/1.png")
        { type := "image", data := some "QUJD", mimeType := some "image/png" } =
      { type := "image", data := none, mimeType := some "image/png"
      , url := some "https://store/1.png" } :=
  ⟨by decide,
   ((image_rehoming_ok (fun _ _ => .ok "https://store/1.png") ⟨[], false⟩
       { type := "image", data := some "QUJD", mimeType := some "image/png" } "QUJD"
       rfl rfl rfl (by decide)).2.1 "https://store/1.png" rfl)⟩

/-- Claim C7, counterexample: the stdio transport environment strips empty
values AFTER overlaying the configuration on the ambient environment, so a
configuration entry with an empty value erases the ambient value for that
key instead of leaving it intact; `buildEnvSpecced` (following the spec
wording, stripping before the merge) keeps the ambient value. -/
theorem buildEnv_empty_overrides_cex :
    buildEnv [("SECRET_KEY", "secret")] [("SECRET_KEY", "")] "SECRET_KEY" = none ∧
    buildEnvSpecced [("SECRET_KEY", "secret")] [("SECRET_KEY", "")] "SECRET_KEY" =
      some "secret" := by
  refine ⟨by decide, by decide⟩

/-- Claim C7 (amended): the environment passed to the stdio transport is the
ambient environment overlaid with the configuration pairs, with empty values
stripped after the merge: no key maps to an empty string, a configuration
entry with an empty value removes the key entirely (erasing any ambient
value), a non-empty configuration value wins, and an unconfigured key falls
back to the ambient value unless that is empty. -/
theorem buildEnv_strip_after_merge (ambient cfgEnv : List (String × String))
    (k : String) :
    (∀ v, buildEnv ambient cfgEnv k = some v → v ≠ "") ∧
    (envLookup cfgEnv k = some "" → buildEnv ambient cfgEnv k = none) ∧
    (∀ v, envLookup cfgEnv k = some v → v ≠ "" → buildEnv ambient cfgEnv k = some v) ∧
    (envLookup cfgEnv k = none →
      buildEnv ambient cfgEnv k =
        match envLookup ambient k with
        | some v => if v = "" then none else some v
        | none => none) := by
  refine ⟨?_, ?_, ?_, ?_⟩
  · intro v hv
    simp only [buildEnv] at hv
    rcases hm : mergeEnvRaw ambient cfgEnv k with _ | w
    · rw [hm] at hv; cases hv
    · rw [hm] at hv
      by_cases hw : w = ""
      · rw [hw] at hv; simp at hv
      · have hsome : some w = some v := by simpa [hw] using hv
        cases hsome; exact hw
  · intro h
    simp [buildEnv, mergeEnvRaw, h]
  · intro v h hne
    simp [buildEnv, mergeEnvRaw, h, hne]
  · intro h
    simp only [buildEnv, mergeEnvRaw, h]

/-- Witness for `buildEnv_strip_after_merge`: a non-empty configured value
"k1" wins over the ambient value. -/
theorem buildEnv_strip_after_merge_witness :
    envLookup [("API_KEY", "k1")] "API_KEY" = some "k1" ∧ ("k1" : String) ≠ "" ∧
    buildEnv [("API_KEY", "ambient")] [("API_KEY", "k1")] "API_KEY" = some "k1" :=
  ⟨rfl, by decide,
   (buildEnv_strip_after_merge [("API_KEY", "ambient")] [("API_KEY", "k1")]
     "API_KEY").2.2.1 "k1" rfl (by decide)⟩

theorem chatLoopAux_sendCount_le (model : Nat → Response)
    (tm : List (String × ToolInfo)) (ct : CallToolFn) (up : UploadFn) :
    ∀ (fuel ic sc : Nat) (resp : Response) (acc : List ToolCall),
      (chatLoopAux model tm ct up fuel ic sc resp acc).sendCount ≤ sc + fuel := by
  intro fuel
  induction fuel with
  | zero => intro ic sc resp acc; simp [chatLoopAux]
  | succ n ih =>
      intro ic sc resp acc
      by_cases h : resp.functionCalls.isEmpty
      · simp [chatLoopAux, h]
      · simp only [chatLoopAux, h, Bool.false_eq_true, if_false]
        have := ih (ic + 1) (sc + 1) (model sc) (acc ++ (execRound tm ct up resp.functionCalls).1)
        omega

theorem chatLoopAux_sendCount_ge (model : Nat → Response)
    (tm : List (String × ToolInfo)) (ct : CallToolFn) (up : UploadFn) :
    ∀ (fuel ic sc : Nat) (resp : Response) (acc : List ToolCall),
      sc ≤ (chatLoopAux model tm ct up fuel ic sc resp acc).sendCount := by
  intro fuel
  induction fuel with
  | zero => intro ic sc resp acc; simp [chatLoopAux]
  | succ n ih =>
      intro ic sc resp acc
      by_cases h : resp.functionCalls.isEmpty
      · simp [chatLoopAux, h]
      · simp only [chatLoopAux, h, Bool.false_eq_true, if_false]
        have := ih (ic + 1) (sc + 1) (model sc) (acc ++ (execRound tm ct up resp.functionCalls).1)
        omega

/-- Claim C1, counterexample: against a model that proposes a function call
in every response, the chat handler performs 11 `chat.sendMessage` calls —
the one issued before the loop plus the 10 issued inside it — so an 11th
round-trip does occur. -/
theorem chat_sendMessage_eleven_cex :
    (runChat (fun _ => ⟨[⟨"f", []⟩], "t"⟩) [] (fun _ _ _ => .error "e")
      (fun _ _ => .error "e")).sendCount = 11 := by
  decide

/-- Claim C1 (amended): for every chat request the orchestration performs at
most 11 `chat.sendMessage` calls — one before the `while` loop and at most
`maxIterations = 10` inside it; a 12th round-trip never occurs. -/
theorem chat_sendMessage_le_eleven (model : Nat → Response)
    (tm : List (String × ToolInfo)) (ct : CallToolFn) (up : UploadFn) :
    (runChat model tm ct up).sendCount ≤ 11 := by
  have h := chatLoopAux_sendCount_le model tm ct up maxIterations 0 1 (model 0) []
  simpa [runChat, maxIterations] using h

/-- Claim C6, counterexample: a model that proposes a function call in every
response and attaches the text "half answer" exhausts the round budget, and
the returned content is exactly "half answer" — `response.text() ||
truncMsg` keeps the text OR the note, never both, and the content is
strictly shorter than the truncation note, so the note does not occur in it:
the truncation is silently hidden whenever the last text is non-empty. -/
theorem truncation_note_missing_cex :
    (runChat (fun _ => ⟨[⟨"f", []⟩], "half answer"⟩) [] (fun _ _ _ => .error "e")
        (fun _ _ => .error "e")).content = "half answer" ∧
    ("half answer" : String) ≠ truncMsg ∧
    ("half answer" : String).length < truncMsg.length := by
  refine ⟨by decide, by decide, by decide⟩

/-- Claim C6 (amended): when the loop exhausts its 10-round budget, the
returned content is the truncation note if the text of the last response is
empty, and otherwise that text alone — the note is used only
as a fallback for an empty text, not appended to it. -/
theorem truncation_fallback (model : Nat → Response)
    (tm : List (String × ToolInfo)) (ct : CallToolFn) (up : UploadFn)
    (h : (chatLoopAux model tm ct up maxIterations 0 1 (model 0) []).iterationCount
          ≥ maxIterations) :
    (runChat model tm ct up).content =
      (if (chatLoopAux model tm ct up maxIterations 0 1 (model 0) []).lastResponse.text = ""
       then truncMsg
       else (chatLoopAux model tm ct up maxIterations 0 1 (model 0) []).lastResponse.text) := by
  simp [runChat, h]

/-- Witness for `truncation_fallback`: a model that always proposes a call
and never produces text exhausts the budget and the caller receives the
truncation note. -/
theorem truncation_fallback_witness :
    (chatLoopAux (fun _ => ⟨[⟨"f", []⟩], ""⟩) [] (fun _ _ _ => .error "e")
        (fun _ _ => .error "e") maxIterations 0 1
        ((fun (_ : Nat) => (⟨[⟨"f", []⟩], ""⟩ : Response)) 0) []).iterationCount
      ≥ maxIterations ∧
    (runChat (fun _ => ⟨[⟨"f", []⟩], ""⟩) [] (fun _ _ _ => .error "e")
        (fun _ _ => .error "e")).content = truncMsg := by
  refine ⟨by decide, ?_⟩
  have h := truncation_fallback (fun _ => ⟨[⟨"f", []⟩], ""⟩) [] (fun _ _ _ => .error "e")
    (fun _ _ => .error "e") (by decide)
  simpa using h

theorem execRound_append (tm : List (String × ToolInfo)) (ct : CallToolFn)
    (up : UploadFn) (a b : List FunctionCall) :
    (execRound tm ct up (a ++ b)).1 = (execRound tm ct up a).1 ++ (execRound tm ct up b).1 ∧
    (execRound tm ct up (a ++ b)).2 = (execRound tm ct up a).2 ++ (execRound tm ct up b).2 := by
  induction a with
  | nil => simp [execRound]
  | cons fc rest ih =>
      simp [execRound, ih.1, ih.2]

/-- Claim C3: a proposed call whose resolved server throws in `callTool`
(in particular "Server ... is not connected" for a missing handle) yields a
`ToolCall` record with status "error" carrying the error string; the other
calls of the round before and after it are executed exactly as they would be on
their own and their function responses are all collected, and the loop still
sends the batched results back to the model (at least one further
`chat.sendMessage` happens), so the request is not terminated. -/
theorem disconnected_call_isolated (tm : List (String × ToolInfo)) (ct : CallToolFn)
    (up : UploadFn) (model : Nat → Response)
    (fcs1 fcs2 : List FunctionCall) (fc : FunctionCall) (info : ToolInfo) (e : String)
    (h1 : resolveTool tm fc.name = some info)
    (h2 : ct info.serverId info.toolName fc.args = .error e) :
    (execRound tm ct up (fcs1 ++ fc :: fcs2)).1
      = (execRound tm ct up fcs1).1
          ++ errorToolCall info fc e :: (execRound tm ct up fcs2).1 ∧
    (execRound tm ct up (fcs1 ++ fc :: fcs2)).2
      = (execRound tm ct up fcs1).2
          ++ ⟨fc.name, .error e⟩ :: (execRound tm ct up fcs2).2 ∧
    (errorToolCall info fc e).status = "error" ∧
    (errorToolCall info fc e).error = some e ∧
    (∀ (fuel ic sc : Nat) (resp : Response) (acc : List ToolCall),
      resp.functionCalls = fcs1 ++ fc :: fcs2 →
      sc + 1 ≤ (chatLoopAux model tm ct up (fuel + 1) ic sc resp acc).sendCount) := by
  have hcall : execCall tm ct up fc
      = ([errorToolCall info fc e], [⟨fc.name, .error e⟩]) := by
    simp [execCall, h1, h2]
  have happ := execRound_append tm ct up fcs1 (fc :: fcs2)
  refine ⟨?_, ?_, rfl, rfl, ?_⟩
  · rw [happ.1]
    simp [execRound, hcall]
  · rw [happ.2]
    simp [execRound, hcall]
  · intro fuel ic sc resp acc hresp
    have hne : resp.functionCalls.isEmpty = false := by
      rw [hresp]
      cases fcs1 <;> rfl
    simp only [chatLoopAux, hne, Bool.false_eq_true, if_false]
    exact chatLoopAux_sendCount_ge model tm ct up fuel (ic + 1) (sc + 1) (model sc) _

/-- Witness for `disconnected_call_isolated`: a single enabled tool whose
server handle is gone; the resolver finds it, `callTool` throws
"Server s is not connected", and the produced record has status "error" and
the error string, while the round (here with one later unknown call) still
produces a response for every proposal. -/
theorem disconnected_call_isolated_witness :
    resolveTool [("s__t", ⟨"s", "t", "Srv"⟩)] "s__t" = some ⟨"s", "t", "Srv"⟩ ∧
    ((fun (sid : String) (_ : String) (_ : List (String × String)) =>
        (Except.error ("Server " ++ sid ++ " is not connected") :
          Except String MCPToolCallResult)) "s" "t" []
      = .error "Server s is not connected") ∧
    (errorToolCall ⟨"s", "t", "Srv"⟩ ⟨"s__t", []⟩ "Server s is not connected").status
      = "error" ∧
    (errorToolCall ⟨"s", "t", "Srv"⟩ ⟨"s__t", []⟩ "Server s is not connected").error
      = some "Server s is not connected" ∧
    (execRound [("s__t", ⟨"s", "t", "Srv"⟩)]
        (fun sid _ _ => .error ("Server " ++ sid ++ " is not connected"))
        (fun _ _ => .error "e") ([] ++ (⟨"s__t", []⟩ : FunctionCall) :: [⟨"ghost2", []⟩])).2
      = (execRound [("s__t", ⟨"s", "t", "Srv"⟩)]
          (fun sid _ _ => .error ("Server " ++ sid ++ " is not connected"))
          (fun _ _ => .error "e") []).2
        ++ (⟨"s__t", .error "Server s is not connected"⟩ : FResponse)
          :: (execRound [("s__t", ⟨"s", "t", "Srv"⟩)]
              (fun sid _ _ => .error ("Server " ++ sid ++ " is not connected"))
              (fun _ _ => .error "e") [⟨"ghost2", []⟩]).2 := by
  have h := disconnected_call_isolated [("s__t", ⟨"s", "t", "Srv"⟩)]
    (fun sid _ _ => .error ("Server " ++ sid ++ " is not connected"))
    (fun _ _ => .error "e") (fun _ => ⟨[], ""⟩)
    [] [⟨"ghost2", []⟩] ⟨"s__t", []⟩ ⟨"s", "t", "Srv"⟩ "Server s is not connected"
    rfl rfl
  exact ⟨rfl, rfl, h.2.2.1, h.2.2.2.1, h.2.1⟩

/-- Claim C5: when `connect` fails after transport/client construction began
— the transport build throws or the protocol handshake throws — no handle is
installed for the id of the configuration (the registry left behind has no entry
for it), the original error is the one propagated, and the outcome is
independent of the best-effort close of the partially-opened client, whose
errors are swallowed. -/
theorem connect_failure_no_install
    (ambient : List (String × String)) (parseURL : String → Bool)
    (reg : Registry) (config : MCPServerConfig)
    (oldClose handshake newClose : Except String Unit) (e : String)
    (hOld : (List.lookup config.id reg).isSome → oldClose = .ok ())
    (hFail : createTransport ambient parseURL config = .error e ∨
      ((∃ t, createTransport ambient parseURL config = .ok t) ∧ handshake = .error e)) :
    (connectFn ambient parseURL reg config oldClose handshake newClose).1 = .error e ∧
    List.lookup config.id
      (connectFn ambient parseURL reg config oldClose handshake newClose).2 = none := by
  by_cases h : (List.lookup config.id reg).isSome
  · have ho := hOld h
    rcases hFail with hct | ⟨⟨t, hok⟩, hh⟩
    · constructor <;> simp [connectFn, h, ho, hct, lookup_eraseKey_self]
    · constructor <;> simp [connectFn, h, ho, hok, hh, lookup_eraseKey_self]
  · have hnone : List.lookup config.id reg = none := by
      cases hl : List.lookup config.id reg with
      | none => rfl
      | some v => rw [hl] at h; simp at h
    rcases hFail with hct | ⟨⟨t, hok⟩, hh⟩
    · constructor <;> simp [connectFn, h, hct, hnone]
    · constructor <;> simp [connectFn, h, hok, hh, hnone]

/-- Witness for `connect_failure_no_install`: a stdio configuration without
a command against an empty registry; the transport build fails, the
configuration error is propagated (independently of the failing best-effort
close passed in), and no handle for "x" is installed. -/
theorem connect_failure_no_install_witness :
    createTransport [] (fun _ => true) ⟨"x", "X", "stdio", none, none, none, none⟩
      = .error "STDIO transport requires a command" ∧
    (connectFn [] (fun _ => true) [] ⟨"x", "X", "stdio", none, none, none, none⟩
        (.ok ()) (.ok ()) (.error "close boom")).1
      = .error "STDIO transport requires a command" ∧
    List.lookup "x"
      (connectFn [] (fun _ => true) [] ⟨"x", "X", "stdio", none, none, none, none⟩
        (.ok ()) (.ok ()) (.error "close boom")).2 = none := by
  have h := connect_failure_no_install [] (fun _ => true) []
    ⟨"x", "X", "stdio", none, none, none, none⟩
    (.ok ()) (.ok ()) (.error "close boom") "STDIO transport requires a command"
    (fun hs => rfl) (Or.inl rfl)
  exact ⟨rfl, h.1, h.2⟩

theorem foldl_disconnect_filter (closeOf : String → Except String Unit)
    (ids : List String) (r : Registry) :
    ids.foldl (fun acc id => (disconnectFn acc closeOf id).2) r
      = r.filter (fun p => !(ids.contains p.1) || closeErrB closeOf p.1) := by
  induction ids generalizing r with
  | nil => simp
  | cons id rest ih =>
      rw [List.foldl_cons, ih]
      rcases hc : closeOf id with e | u
      · have hstep : (disconnectFn r closeOf id).2 = r := by
          cases hl : List.lookup id r <;> simp [disconnectFn, hl, hc]
        rw [hstep]
        apply List.filter_congr
        intro p hp
        by_cases hp1 : p.1 = id
        · have herr : closeErrB closeOf p.1 = true := by
            rw [hp1]; simp [closeErrB, hc]
          simp [herr]
        · simp [List.contains_cons, hp1]
      · rcases hl : List.lookup id r with _ | v
        · have hstep : (disconnectFn r closeOf id).2 = r := by
            simp [disconnectFn, hl]
          rw [hstep]
          apply List.filter_congr
          intro p hp
          have hne : p.1 ≠ id := lookup_none_no_key r id hl p hp
          simp [List.contains_cons, hne]
        · have hstep : (disconnectFn r closeOf id).2 = eraseKey r id := by
            simp [disconnectFn, hl, hc]
          rw [hstep, eraseKey, List.filter_filter]
          apply List.filter_congr
          intro p hp
          by_cases hp1 : p.1 = id
          · have herr : closeErrB closeOf id = false := by simp [closeErrB, hc]
            simp [List.contains_cons, hp1, herr]
          · simp [List.contains_cons, hp1]

/-- Claim C8, counterexample: with two connected ids where closing "a"
throws and closing "b" succeeds, `disconnectAll` rejects with the close
error instead of logging it — but "b" is still disconnected and removed
while the failing "a" remains registered. -/
theorem disconnectAll_throws_cex :
    (disconnectAllFn
        [("a", ⟨"a", "A", "stdio", some "cmd", none, none, none⟩),
         ("b", ⟨"b", "B", "stdio", some "cmd", none, none, none⟩)]
        (fun id => if id = "a" then .error "boom" else .ok ())).1
      = Except.error "boom" ∧
    (disconnectAllFn
        [("a", ⟨"a", "A", "stdio", some "cmd", none, none, none⟩),
         ("b", ⟨"b", "B", "stdio", some "cmd", none, none, none⟩)]
        (fun id => if id = "a" then .error "boom" else .ok ())).2
      = [("a", ⟨"a", "A", "stdio", some "cmd", none, none, none⟩)] := by
  refine ⟨rfl, rfl⟩

/-- Claim C8 (amended): `disconnectAll` starts a teardown for every known
id, and a close failure on one id does not prevent the others from being
disconnected and removed — afterwards exactly the ids whose close threw
remain registered; but a close failure IS raised: the aggregate call
resolves successfully only when every close succeeded, and rejects whenever
the close of some id threw. -/
theorem disconnectAll_besteffort (reg : Registry)
    (closeOf : String → Except String Unit) :
    (disconnectAllFn reg closeOf).2 = reg.filter (fun p => closeErrB closeOf p.1) ∧
    ((∀ p ∈ reg, closeOf p.1 = .ok ()) → (disconnectAllFn reg closeOf).1 = .ok ()) ∧
    (∀ p ∈ reg, ∀ e, closeOf p.1 = .error e →
      (disconnectAllFn reg closeOf).1 ≠ .ok ()) := by
  refine ⟨?_, ?_, ?_⟩
  · simp only [disconnectAllFn]
    rw [foldl_disconnect_filter]
    apply List.filter_congr
    intro p hp
    have hmem : p.1 ∈ reg.map (fun q => q.1) := List.mem_map_of_mem _ hp
    have hcont : (reg.map (fun q => q.1)).contains p.1 = true := by
      simpa using hmem
    rw [hcont]
    simp
  · intro hall
    have hfs : (reg.map (fun p => p.1)).findSome?
        (fun id => match closeOf id with
          | .error e => some e
          | .ok _ => none) = none := by
      apply List.findSome?_eq_none_iff.mpr
      intro id hid
      rcases List.mem_map.mp hid with ⟨p, hp, rfl⟩
      simp [hall p hp]
    simp [disconnectAllFn, hfs]
  · intro p hp e he
    rcases hfs : (reg.map (fun q => q.1)).findSome?
        (fun id => match closeOf id with
          | .error e => some e
          | .ok _ => none) with _ | e'
    · exfalso
      have := List.findSome?_eq_none_iff.mp hfs p.1 (List.mem_map_of_mem _ hp)
      rw [he] at this
      cases this
    · simp [disconnectAllFn, hfs]

/-- Witness for `disconnectAll_besteffort`: every close succeeds, so the
aggregate call resolves and the registry is emptied. -/
theorem disconnectAll_besteffort_witness :
    ((fun (_ : String) => (Except.ok () : Except String Unit)) "a" = .ok ()) ∧
    (disconnectAllFn [("a", ⟨"a", "A", "stdio", some "cmd", none, none, none⟩)]
        (fun _ => .ok ())).1 = .ok () := by
  have h := disconnectAll_besteffort
    [("a", ⟨"a", "A", "stdio", some "cmd", none, none, none⟩)] (fun _ => .ok ())
  exact ⟨rfl, h.2.1 (fun p _ => rfl)⟩
